import Mathlib

/-!
Shallow embedding of `src/monte_carlo/analysis.py`.

The script has two functions:

* `simulate_yield_distribution(num_policies, annual_premium, claim_amount,
  simulations, p_min, p_max)` — runs `simulations` Monte-Carlo trials.  Each
  trial draws `p = random.uniform(p_min, p_max)` (CPython computes
  `p_min + (p_max - p_min) * random.random()`), counts
  `fires = sum(1 for _ in range(num_policies) if random.random() < p)`,
  and appends `(total_premiums - fires * claim_amount) / total_premiums * 100`
  to the result list, where `total_premiums = num_policies * annual_premium`
  is computed once before the loop.

* `summarize_and_plot_yields(yields)` — computes `np.mean`, the 5th and the
  95th `np.percentile` (default linear interpolation between order
  statistics) and displays them.

We model real arithmetic by `ℚ` and the random source by an explicit stream
`g : ℕ → ℚ` of the successive values returned by `random.random()`, consumed
in program order: trial `t` uses index `t * (1 + num_policies)` for the
uniform draw and the following `num_policies` indices for the per-policy
draws.  Fallible computations return `Except PyError`.
-/

/-- Runtime failures observable from the script (`ZeroDivisionError` from the
unguarded yield division, `IndexError` raised by `np.percentile` on an empty
array), together with the two exception names the specification postulates.
The script defines neither `InvalidConfiguration` nor `EmptyDistribution`
and can never raise them; they are present so that claims about them can be
stated. -/
inductive PyError where
  | zeroDivision
  | indexError
  | invalidConfiguration
  | emptyDistribution
  deriving DecidableEq

/-- The parameter set of `simulate_yield_distribution` (defaults in the
source: 1000, 3000, 150000, 10000, 0.003, 0.017). -/
structure SimulationConfig where
  num_policies : ℕ
  annual_premium : ℚ
  claim_amount : ℚ
  simulations : ℕ
  p_min : ℚ
  p_max : ℚ
  deriving DecidableEq

/-- The configuration invariant stated by the specification: positive
population, trials, charge and loss, and hazard bounds `0 ≤ lower ≤ upper ≤ 1`.
The script itself never checks it. -/
def ValidConfig (cfg : SimulationConfig) : Prop :=
  0 < cfg.num_policies ∧ 0 < cfg.simulations ∧ 0 < cfg.annual_premium ∧
    0 < cfg.claim_amount ∧ 0 ≤ cfg.p_min ∧ cfg.p_min ≤ cfg.p_max ∧ cfg.p_max ≤ 1

instance (cfg : SimulationConfig) : Decidable (ValidConfig cfg) := by
  unfold ValidConfig; infer_instance

/-- A random source behaving like `random.random()`: every draw lies in
`[0, 1)`. -/
def UniformSource (g : ℕ → ℚ) : Prop :=
  ∀ i, 0 ≤ g i ∧ g i < 1

/-- CPython `random.uniform(a, b) = a + (b - a) * random.random()`. -/
def uniform (a b u : ℚ) : ℚ :=
  a + (b - a) * u

/-- The count `fires = sum(1 for _ in range(num_policies) if random.random() < p)`,
with the per-policy draws taken at stream indices `i+1, …, i+num_policies`. -/
def fires (cfg : SimulationConfig) (g : ℕ → ℚ) (i : ℕ) (p : ℚ) : ℕ :=
  (List.range cfg.num_policies).countP (fun j => decide (g (i + 1 + j) < p))

/-- The divisor `total_premiums = num_policies * annual_premium`. -/
def total_premiums (cfg : SimulationConfig) : ℚ :=
  (cfg.num_policies : ℚ) * cfg.annual_premium

/-- The yield percentage of one trial whose draws start at stream index `i`,
as the ideal value of `(net_profit / total_premiums) * 100`. -/
def trialValue (cfg : SimulationConfig) (g : ℕ → ℚ) (i : ℕ) : ℚ :=
  let p := uniform cfg.p_min cfg.p_max (g i)
  let k := fires cfg g i p
  let total_payout := (k : ℚ) * cfg.claim_amount
  let net_profit := total_premiums cfg - total_payout
  net_profit / total_premiums cfg * 100

/-- One trial of the loop body: Python raises `ZeroDivisionError` when the
divisor `total_premiums` is zero, otherwise produces the yield percentage. -/
def trialYield (cfg : SimulationConfig) (g : ℕ → ℚ) (i : ℕ) : Except PyError ℚ :=
  if total_premiums cfg = 0 then .error .zeroDivision
  else .ok (trialValue cfg g i)

/-- Runs `n` consecutive trials starting with trial number `t`; the first raised
error aborts the loop, exactly as an uncaught Python exception would. -/
def runTrials (cfg : SimulationConfig) (g : ℕ → ℚ) (t : ℕ) : ℕ → Except PyError (List ℚ)
  | 0 => .ok []
  | Nat.succ m =>
      match trialYield cfg g (t * (1 + cfg.num_policies)) with
      | .error e => .error e
      | .ok y =>
          match runTrials cfg g (t + 1) m with
          | .error e => .error e
          | .ok rest => .ok (y :: rest)

/-- The function `simulate_yield_distribution`: the full list of yields, in
trial order. -/
def simulate_yield_distribution (cfg : SimulationConfig) (g : ℕ → ℚ) :
    Except PyError (List ℚ) :=
  runTrials cfg g 0 cfg.simulations

/-- The arithmetic average, as `np.mean` computes it. -/
def np_mean (xs : List ℚ) : ℚ :=
  xs.sum / (xs.length : ℚ)

/-- The input array sorted ascending, as `np.percentile` sorts it. -/
def sortedYields (xs : List ℚ) : List ℚ :=
  List.insertionSort (· ≤ ·) xs

/-- The rank of percentile `q` over `n` values: `q / 100 * (n - 1)`. -/
def rank (xs : List ℚ) (q : ℚ) : ℚ :=
  q / 100 * ((xs.length : ℚ) - 1)

/-- The lower bracketing index: the floor of the rank. -/
def loIndex (xs : List ℚ) (q : ℚ) : ℕ :=
  (Int.floor (rank xs q)).toNat

/-- The value of `np.percentile` with the default linear interpolation
method: over the
`n` sorted values the rank of percentile `q` is `q / 100 * (n - 1)`; the
result interpolates linearly between the two sorted values bracketing the
rank (the upper index is clipped to the array, as numpy clips it). -/
def percentile (xs : List ℚ) (q : ℚ) : ℚ :=
  (sortedYields xs).getD (loIndex xs q) 0 +
    (rank xs q - (loIndex xs q : ℚ)) *
      ((sortedYields xs).getD (min (loIndex xs q + 1) (xs.length - 1)) 0 -
        (sortedYields xs).getD (loIndex xs q) 0)

/-- The statistics computed (and printed) by `summarize_and_plot_yields`. -/
structure SummaryStatistics where
  mean_yield : ℚ
  p5 : ℚ
  p95 : ℚ
  deriving DecidableEq

/-- The function `summarize_and_plot_yields`: on an empty input `np.percentile` raises
`IndexError` (`np.mean` only warns and yields nan first); on non-empty input
the mean and the 5th/95th percentiles are computed.  Printing and plotting
are side effects carrying no further data. -/
def summarize_and_plot_yields (yields : List ℚ) : Except PyError SummaryStatistics :=
  if yields.length = 0 then .error .indexError
  else .ok ⟨np_mean yields, percentile yields 5, percentile yields 95⟩

/-- The percentile formula exactly as the specification words it: for
percentile `q` over `n` sorted values the rank is `q / 100 * (n - 1)`; at an
integral rank the order statistic itself is taken, and at a fractional rank
the two bracketing sorted values are interpolated linearly.  Stated
separately from `percentile` (which follows numpy, with its index clipping)
so the two can be compared. -/
def specPercentile (xs : List ℚ) (q : ℚ) : ℚ :=
  if ((loIndex xs q : ℚ)) = rank xs q then (sortedYields xs).getD (loIndex xs q) 0
  else
    (sortedYields xs).getD (loIndex xs q) 0 +
      (rank xs q - (loIndex xs q : ℚ)) *
        ((sortedYields xs).getD (loIndex xs q + 1) 0 -
          (sortedYields xs).getD (loIndex xs q) 0)

/-- The zero-hazard end-to-end scenario of the specification. -/
def cfgZero : SimulationConfig :=
  ⟨100, 1000, 50000, 5000, 0, 0⟩

/-- The certain-fire end-to-end scenario of the specification. -/
def cfgOne : SimulationConfig :=
  ⟨100, 1000, 50000, 5000, 1, 1⟩

/-- An invalid configuration (zero trials), used to exhibit the absence of
validation. -/
def cfgNoTrials : SimulationConfig :=
  ⟨100, 1000, 50000, 0, 0, 0⟩

/-- An invalid configuration (zero population) on which the yield division
divides by zero. -/
def cfgZeroPop : SimulationConfig :=
  ⟨0, 1000, 50000, 1, 0, 0⟩

/-- An invalid configuration (negative charge) whose divisor is nonetheless
nonzero, so the simulation runs to completion. -/
def cfgNegCharge : SimulationConfig :=
  ⟨100, -1000, 50000, 3, 0, 0⟩

/-- A small valid configuration for instantiating universal theorems. -/
def cfgW : SimulationConfig :=
  ⟨1, 1, 1, 1, 0, 1⟩

/-- A concrete deterministic random source (every draw is `0`). -/
def gW : ℕ → ℚ :=
  fun _ => 0

/-- A second random source agreeing with `gW` on the first two draws. -/
def gW2 : ℕ → ℚ :=
  fun i => if i < 2 then 0 else 1

/-! ### Basic lemmas about the trial loop -/

theorem trialYield_ok (cfg : SimulationConfig) (g : ℕ → ℚ) (i : ℕ)
    (hT : total_premiums cfg ≠ 0) :
    trialYield cfg g i = .ok (trialValue cfg g i) := by
  simp [trialYield, hT]

/-- When the divisor is nonzero every trial succeeds, and the loop returns
the yields of trials `t, t+1, …, t+n-1` in order. -/
theorem runTrials_ok (cfg : SimulationConfig) (g : ℕ → ℚ)
    (hT : total_premiums cfg ≠ 0) :
    ∀ n t, runTrials cfg g t n =
      .ok ((List.range n).map
        (fun k => trialValue cfg g ((t + k) * (1 + cfg.num_policies)))) := by
  intro n
  induction n with
  | zero => intro t; simp [runTrials]
  | succ m ih =>
      intro t
      rw [runTrials, trialYield_ok cfg g _ hT, ih (t + 1)]
      rw [List.range_succ_eq_map, List.map_cons, List.map_map]
      show Except.ok _ = Except.ok _
      congr 2
      apply List.map_congr_left
      intro k _
      simp only [Function.comp_apply]
      congr 1
      congr 1
      omega

/-- With a zero divisor and at least one trial, the loop raises the
division-by-zero error. -/
theorem runTrials_zeroDiv (cfg : SimulationConfig) (g : ℕ → ℚ) (t m : ℕ)
    (hT : total_premiums cfg = 0) :
    runTrials cfg g t (m + 1) = .error PyError.zeroDivision := by
  rw [runTrials]
  simp [trialYield, hT]

/-- The only error the loop can raise is the division by zero. -/
theorem runTrials_error (cfg : SimulationConfig) (g : ℕ → ℚ) (n t : ℕ)
    (e : PyError) (h : runTrials cfg g t n = .error e) :
    e = PyError.zeroDivision := by
  by_cases hT : total_premiums cfg = 0
  · cases n with
    | zero => simp [runTrials] at h
    | succ m =>
        rw [runTrials_zeroDiv cfg g t m hT] at h
        cases h
        rfl
  · rw [runTrials_ok cfg g hT n t] at h
    cases h

/-- The count of fires never exceeds the population size. -/
theorem fires_le (cfg : SimulationConfig) (g : ℕ → ℚ) (i : ℕ) (p : ℚ) :
    fires cfg g i p ≤ cfg.num_policies := by
  calc fires cfg g i p ≤ (List.range cfg.num_policies).length :=
        List.countP_le_length _
    _ = cfg.num_policies := List.length_range _

/-! ### Lemmas about the summary statistics -/

theorem getD_replicate (n i : ℕ) (c d : ℚ) (h : i < n) :
    (List.replicate n c).getD i d = c := by
  rw [List.getD_eq_getElem?_getD, List.getElem?_replicate, if_pos h]
  rfl

theorem insertionSort_replicate (n : ℕ) (c : ℚ) :
    List.insertionSort (· ≤ ·) (List.replicate n c) = List.replicate n c := by
  have hperm := List.perm_insertionSort (· ≤ ·) (List.replicate n c)
  refine List.eq_replicate_iff.mpr ⟨?_, ?_⟩
  · rw [hperm.length_eq, List.length_replicate]
  · intro b hb
    exact List.eq_of_mem_replicate (hperm.mem_iff.mp hb)

theorem np_mean_replicate (n : ℕ) (hn : 0 < n) (c : ℚ) :
    np_mean (List.replicate n c) = c := by
  have hn' : ((n : ℚ)) ≠ 0 := by positivity
  rw [np_mean, List.sum_replicate, List.length_replicate, nsmul_eq_mul,
    mul_comm, mul_div_assoc, div_self hn', mul_one]

theorem loIndex_lt (xs : List ℚ) (q : ℚ) (hxs : xs ≠ [])
    (hq0 : 0 ≤ q) (hq1 : q ≤ 100) : loIndex xs q < xs.length := by
  have hn : 0 < xs.length := List.length_pos.mpr hxs
  have hr1 : rank xs q ≤ (xs.length : ℚ) - 1 := by
    rw [rank]
    have h100 : q / 100 ≤ 1 := by linarith [div_le_one_of_le hq1 (by norm_num : (0:ℚ) ≤ 100)]
    have hnn : (0:ℚ) ≤ (xs.length : ℚ) - 1 := by
      have : (1:ℚ) ≤ (xs.length : ℚ) := by exact_mod_cast hn
      linarith
    nlinarith
  have hfl : Int.floor (rank xs q) ≤ (xs.length : ℤ) - 1 := by
    have h2 : Int.floor ((xs.length : ℚ) - 1) = (xs.length : ℤ) - 1 := by
      rw [show ((xs.length : ℚ) - 1) = (((xs.length : ℤ) - 1 : ℤ) : ℚ) by push_cast; ring,
        Int.floor_intCast]
    calc Int.floor (rank xs q) ≤ Int.floor ((xs.length : ℚ) - 1) := Int.floor_le_floor hr1
      _ = (xs.length : ℤ) - 1 := h2
  rw [loIndex]
  omega

theorem percentile_replicate (n : ℕ) (hn : 0 < n) (c q : ℚ)
    (hq0 : 0 ≤ q) (hq1 : q ≤ 100) :
    percentile (List.replicate n c) q = c := by
  have hne : List.replicate n c ≠ [] :=
    List.ne_nil_of_length_pos (by simpa using hn)
  have hlo := loIndex_lt (List.replicate n c) q hne hq0 hq1
  rw [List.length_replicate] at hlo
  have hlo2 : min (loIndex (List.replicate n c) q + 1) ((List.replicate n c).length - 1) < n := by
    rw [List.length_replicate]
    omega
  rw [percentile, sortedYields, insertionSort_replicate]
  rw [List.length_replicate] at hlo2 ⊢
  rw [getD_replicate n _ c 0 hlo, getD_replicate n _ c 0 hlo2]
  ring

/-! ### Bounds and degenerate-hazard behaviour of a single trial -/

theorem fires_all (cfg : SimulationConfig) (g : ℕ → ℚ) (i : ℕ) (p : ℚ)
    (h : ∀ j, g (i + 1 + j) < p) :
    fires cfg g i p = cfg.num_policies := by
  rw [fires]
  have h2 : ∀ a ∈ List.range cfg.num_policies,
      (fun j => decide (g (i + 1 + j) < p)) a = true := by
    intro a _
    simpa using h a
  rw [List.countP_eq_length.mpr h2, List.length_range]

theorem fires_none (cfg : SimulationConfig) (g : ℕ → ℚ) (i : ℕ) (p : ℚ)
    (h : ∀ j, ¬ g (i + 1 + j) < p) :
    fires cfg g i p = 0 := by
  rw [fires]
  have h2 : ∀ a ∈ List.range cfg.num_policies,
      ¬ (fun j => decide (g (i + 1 + j) < p)) a = true := by
    intro a _
    simpa using h a
  exact List.countP_eq_zero.mpr h2

/-- A single trial value always lies in the interval
`[100 - loss / charge * 100, 100]` for a positive configuration: the fire
count is at most the population and at least zero. -/
theorem trialValue_bounds (cfg : SimulationConfig) (g : ℕ → ℚ) (i : ℕ)
    (hN : 0 < cfg.num_policies) (hC : 0 < cfg.annual_premium)
    (hL : 0 < cfg.claim_amount) :
    100 - cfg.claim_amount / cfg.annual_premium * 100 ≤ trialValue cfg g i ∧
      trialValue cfg g i ≤ 100 := by
  have hNq : (0:ℚ) < (cfg.num_policies : ℚ) := by exact_mod_cast hN
  have hT : (0:ℚ) < total_premiums cfg := mul_pos hNq hC
  have hk : ((fires cfg g i (uniform cfg.p_min cfg.p_max (g i))) : ℚ) ≤
      (cfg.num_policies : ℚ) := by
    exact_mod_cast fires_le cfg g i _
  have hk0 : (0:ℚ) ≤ ((fires cfg g i (uniform cfg.p_min cfg.p_max (g i))) : ℚ) := by
    positivity
  simp only [trialValue]
  set k : ℚ := ((fires cfg g i (uniform cfg.p_min cfg.p_max (g i))) : ℚ) with hkdef
  constructor
  · rw [div_mul_eq_mul_div (total_premiums cfg - k * cfg.claim_amount)
        (total_premiums cfg) 100, le_div_iff hT]
    have key : cfg.claim_amount / cfg.annual_premium * total_premiums cfg =
        cfg.claim_amount * (cfg.num_policies : ℚ) := by
      rw [total_premiums]
      field_simp
      ring
    nlinarith [mul_le_mul_of_nonneg_right hk hL.le]
  · rw [div_mul_eq_mul_div, div_le_iff hT]
    nlinarith [mul_nonneg hk0 hL.le]

/-! ### The simulation depends only on the consumed prefix of the stream -/

theorem fires_congr (cfg : SimulationConfig) (g1 g2 : ℕ → ℚ) (i : ℕ) (p : ℚ)
    (h : ∀ j, j < cfg.num_policies → g1 (i + 1 + j) = g2 (i + 1 + j)) :
    fires cfg g1 i p = fires cfg g2 i p := by
  rw [fires, fires]
  apply List.countP_congr
  intro a ha
  rw [List.mem_range] at ha
  simp [h a ha]

theorem trialValue_congr (cfg : SimulationConfig) (g1 g2 : ℕ → ℚ) (i : ℕ)
    (h : ∀ j, j ≤ cfg.num_policies → g1 (i + j) = g2 (i + j)) :
    trialValue cfg g1 i = trialValue cfg g2 i := by
  have h0 : g1 i = g2 i := by simpa using h 0 (Nat.zero_le _)
  have hf : fires cfg g1 i (uniform cfg.p_min cfg.p_max (g2 i)) =
      fires cfg g2 i (uniform cfg.p_min cfg.p_max (g2 i)) := by
    apply fires_congr
    intro j hj
    have hle := h (1 + j) (by omega)
    rw [show i + (1 + j) = i + 1 + j by omega] at hle
    exact hle
  simp only [trialValue, h0, hf]

theorem runTrials_congr (cfg : SimulationConfig) (g1 g2 : ℕ → ℚ) :
    ∀ n t, (∀ i, i < (t + n) * (1 + cfg.num_policies) → g1 i = g2 i) →
      runTrials cfg g1 t n = runTrials cfg g2 t n := by
  intro n
  induction n with
  | zero => intro t _; rfl
  | succ m ih =>
      intro t h
      rw [runTrials, runTrials]
      have hmono : (t + 1) * (1 + cfg.num_policies) ≤
          (t + (m + 1)) * (1 + cfg.num_policies) :=
        Nat.mul_le_mul_right _ (by omega)
      have htrial : trialYield cfg g1 (t * (1 + cfg.num_policies)) =
          trialYield cfg g2 (t * (1 + cfg.num_policies)) := by
        rw [trialYield, trialYield]
        by_cases hT : total_premiums cfg = 0
        · simp [hT]
        · simp only [if_neg hT]
          congr 1
          apply trialValue_congr
          intro j hj
          apply h
          have hstep : t * (1 + cfg.num_policies) + j <
              (t + 1) * (1 + cfg.num_policies) := by
            rw [add_mul, one_mul]
            omega
          omega
      rw [htrial]
      have hrest : runTrials cfg g1 (t + 1) m = runTrials cfg g2 (t + 1) m := by
        apply ih (t + 1)
        intro i hi
        apply h
        rw [show t + 1 + m = t + (m + 1) by omega] at hi
        exact hi
      rw [hrest]

theorem trialValue_cfgZero (cfg : SimulationConfig) (g : ℕ → ℚ) (i : ℕ)
    (hg : ∀ j, 0 ≤ g j) (hmin : cfg.p_min = 0) (hmax : cfg.p_max = 0) :
    trialValue cfg g i =
      total_premiums cfg / total_premiums cfg * 100 := by
  have hp : uniform cfg.p_min cfg.p_max (g i) = 0 := by
    rw [uniform, hmin, hmax]
    ring
  have hf : fires cfg g i (uniform cfg.p_min cfg.p_max (g i)) = 0 := by
    rw [hp]
    apply fires_none
    intro j
    exact not_lt.mpr (hg _)
  simp only [trialValue, hf]
  push_cast
  ring_nf

theorem trialValue_cfgOne (cfg : SimulationConfig) (g : ℕ → ℚ) (i : ℕ)
    (hg : ∀ j, g j < 1) (hmin : cfg.p_min = 1) (hmax : cfg.p_max = 1) :
    trialValue cfg g i =
      (total_premiums cfg - (cfg.num_policies : ℚ) * cfg.claim_amount) /
        total_premiums cfg * 100 := by
  have hp : uniform cfg.p_min cfg.p_max (g i) = 1 := by
    rw [uniform, hmin, hmax]
    ring
  have hf : fires cfg g i (uniform cfg.p_min cfg.p_max (g i)) = cfg.num_policies := by
    rw [hp]
    apply fires_all
    intro j
    exact hg _
  simp only [trialValue, hf]

/-! ### Helper facts about whole simulations -/

theorem total_premiums_pos (cfg : SimulationConfig) (hN : 0 < cfg.num_policies)
    (hC : 0 < cfg.annual_premium) : 0 < total_premiums cfg := by
  have hNq : (0:ℚ) < (cfg.num_policies : ℚ) := by exact_mod_cast hN
  exact mul_pos hNq hC

theorem simulate_ok (cfg : SimulationConfig) (g : ℕ → ℚ)
    (hT : total_premiums cfg ≠ 0) :
    simulate_yield_distribution cfg g =
      .ok ((List.range cfg.simulations).map
        (fun t => trialValue cfg g (t * (1 + cfg.num_policies)))) := by
  rw [simulate_yield_distribution, runTrials_ok cfg g hT cfg.simulations 0]
  congr 1
  apply List.map_congr_left
  intro k _
  congr 1
  congr 1
  omega

theorem simulate_zeroDiv (cfg : SimulationConfig) (g : ℕ → ℚ)
    (hT : total_premiums cfg = 0) (hs : 1 ≤ cfg.simulations) :
    simulate_yield_distribution cfg g = .error PyError.zeroDivision := by
  obtain ⟨m, hm⟩ : ∃ m, cfg.simulations = m + 1 := ⟨cfg.simulations - 1, by omega⟩
  rw [simulate_yield_distribution, hm]
  exact runTrials_zeroDiv cfg g 0 m hT

/-! ### The claims -/

/-- Claim C1: for every valid configuration (positive population, trials,
charge and loss, `0 ≤ lower ≤ upper ≤ 1`), `simulate_yield_distribution`
succeeds with a distribution of length exactly the trial count, whose `t`-th
entry is the yield of the `t`-th generated trial (order preserved). -/
theorem C1_simulate_length (cfg : SimulationConfig) (g : ℕ → ℚ)
    (hv : ValidConfig cfg) :
    simulate_yield_distribution cfg g =
      .ok ((List.range cfg.simulations).map
        (fun t => trialValue cfg g (t * (1 + cfg.num_policies)))) ∧
    ((List.range cfg.simulations).map
        (fun t => trialValue cfg g (t * (1 + cfg.num_policies)))).length =
      cfg.simulations := by
  obtain ⟨hN, hs, hC, hL, -⟩ := hv
  refine ⟨simulate_ok cfg g (ne_of_gt (total_premiums_pos cfg hN hC)), ?_⟩
  rw [List.length_map, List.length_range]

theorem C1_witness :
    simulate_yield_distribution cfgW gW =
      .ok ((List.range cfgW.simulations).map
        (fun t => trialValue cfgW gW (t * (1 + cfgW.num_policies)))) ∧
    ((List.range cfgW.simulations).map
        (fun t => trialValue cfgW gW (t * (1 + cfgW.num_policies)))).length =
      cfgW.simulations :=
  C1_simulate_length cfgW gW (by decide)

/-- Claim C2: for every valid configuration, every sample of a successful
simulation lies in the closed interval
`[100 - claim_amount / annual_premium * 100, 100]`. -/
theorem C2_sample_bounds (cfg : SimulationConfig) (g : ℕ → ℚ)
    (ys : List ℚ) (y : ℚ) (hv : ValidConfig cfg)
    (hok : simulate_yield_distribution cfg g = .ok ys) (hy : y ∈ ys) :
    100 - cfg.claim_amount / cfg.annual_premium * 100 ≤ y ∧ y ≤ 100 := by
  obtain ⟨hN, hs, hC, hL, -⟩ := hv
  rw [simulate_ok cfg g (ne_of_gt (total_premiums_pos cfg hN hC))] at hok
  cases hok
  obtain ⟨k, -, rfl⟩ := List.mem_map.mp hy
  exact trialValue_bounds cfg g _ hN hC hL

theorem C2_witness :
    100 - cfgW.claim_amount / cfgW.annual_premium * 100 ≤ trialValue cfgW gW 0 ∧
      trialValue cfgW gW 0 ≤ 100 := by
  refine C2_sample_bounds cfgW gW [trialValue cfgW gW 0] (trialValue cfgW gW 0)
    (by decide) ?_ (by simp)
  rw [simulate_ok cfgW gW (by norm_num [total_premiums, cfgW])]
  rfl

/-- Claim C3 (counterexample): the claim says every invalid configuration
raises InvalidConfiguration before any trial runs and yields no
distribution.  The zero-trial configuration is invalid, yet the code raises
nothing and returns the empty distribution. -/
theorem C3_counterexample :
    ¬ ValidConfig cfgNoTrials ∧
      simulate_yield_distribution cfgNoTrials gW = .ok [] := by
  constructor
  · decide
  · rfl

/-- Claim C3 (amended): calling simulate with an invalid configuration never
raises `InvalidConfiguration` — the code performs no validation.  What
happens instead depends only on the arithmetic: trial count `0` yields the
empty distribution; zero population or zero charge with at least one trial
fails with the runtime division-by-zero error; and any configuration with
nonzero population and nonzero charge — including every remaining kind of
invalid one — runs to completion and yields a distribution of length equal
to the trial count. -/
theorem C3_no_validation (cfg : SimulationConfig) (g : ℕ → ℚ) :
    simulate_yield_distribution cfg g ≠ .error PyError.invalidConfiguration ∧
      (cfg.simulations = 0 → simulate_yield_distribution cfg g = .ok []) ∧
      ((cfg.num_policies = 0 ∨ cfg.annual_premium = 0) → 0 < cfg.simulations →
        simulate_yield_distribution cfg g = .error PyError.zeroDivision) ∧
      (cfg.num_policies ≠ 0 → cfg.annual_premium ≠ 0 →
        ∃ ys, simulate_yield_distribution cfg g = .ok ys ∧
          ys.length = cfg.simulations) := by
  refine ⟨?_, ?_, ?_, ?_⟩
  · intro h
    rw [simulate_yield_distribution] at h
    exact PyError.noConfusion (runTrials_error cfg g cfg.simulations 0 _ h)
  · intro h0
    rw [simulate_yield_distribution, h0]
    rfl
  · intro hz hs
    have hT : total_premiums cfg = 0 := by
      rw [total_premiums]
      rcases hz with h | h
      · rw [h]; simp
      · rw [h]; simp
    exact simulate_zeroDiv cfg g hT hs
  · intro hN hC
    have hT : total_premiums cfg ≠ 0 := by
      rw [total_premiums]
      exact mul_ne_zero (Nat.cast_ne_zero.mpr hN) hC
    exact ⟨_, simulate_ok cfg g hT, by rw [List.length_map, List.length_range]⟩

theorem C3_witness :
    simulate_yield_distribution cfgNoTrials gW = .ok [] ∧
      simulate_yield_distribution cfgZeroPop gW = .error PyError.zeroDivision ∧
      ∃ ys, simulate_yield_distribution cfgNegCharge gW = .ok ys ∧
        ys.length = cfgNegCharge.simulations :=
  ⟨(C3_no_validation cfgNoTrials gW).2.1 rfl,
   (C3_no_validation cfgZeroPop gW).2.2.1 (Or.inl rfl) (by decide),
   (C3_no_validation cfgNegCharge gW).2.2.2 (by decide)
     (by norm_num [cfgNegCharge])⟩

/-- Claim C10: the yield division is unguarded.  With zero population or
zero per-policy charge and at least one trial, the simulation fails with the
runtime division-by-zero error (not a validation error); conversely whenever
the divisor `total_premiums` is nonzero the computation is total. -/
theorem C10_unguarded_division (cfg : SimulationConfig) (g : ℕ → ℚ) :
    ((cfg.num_policies = 0 ∨ cfg.annual_premium = 0) → 1 ≤ cfg.simulations →
      simulate_yield_distribution cfg g = .error PyError.zeroDivision) ∧
    (total_premiums cfg ≠ 0 → ∃ ys, simulate_yield_distribution cfg g = .ok ys) := by
  constructor
  · intro hz hs
    have hT : total_premiums cfg = 0 := by
      rw [total_premiums]
      rcases hz with h | h
      · rw [h]; simp
      · rw [h]; simp
    exact simulate_zeroDiv cfg g hT hs
  · intro hT
    exact ⟨_, simulate_ok cfg g hT⟩

theorem C10_witness :
    simulate_yield_distribution cfgZeroPop gW = .error PyError.zeroDivision ∧
      ∃ ys, simulate_yield_distribution cfgW gW = .ok ys :=
  ⟨(C10_unguarded_division cfgZeroPop gW).1 (Or.inl rfl) (by decide),
   (C10_unguarded_division cfgW gW).2 (by norm_num [total_premiums, cfgW])⟩

/-- Claim C4 (counterexample): the claim says an empty distribution raises
EmptyDistribution.  The code defines no such exception: on the empty list
`np.percentile` raises a plain `IndexError`. -/
theorem C4_counterexample :
    summarize_and_plot_yields [] = .error PyError.indexError ∧
      PyError.indexError ≠ PyError.emptyDistribution := by
  constructor
  · rfl
  · decide

/-- Claim C4 (amended): calling the summarizer on a zero-length distribution
fails, but with numpy's `IndexError` rather than a dedicated
`EmptyDistribution`; on every non-empty distribution it succeeds and
produces the mean and the 5th and 95th percentiles. -/
theorem C4_empty_fails (ys : List ℚ) :
    (ys = [] → summarize_and_plot_yields ys = .error PyError.indexError) ∧
      (ys ≠ [] → summarize_and_plot_yields ys =
        .ok ⟨np_mean ys, percentile ys 5, percentile ys 95⟩) := by
  constructor
  · intro h
    rw [h]
    rfl
  · intro h
    rw [summarize_and_plot_yields, if_neg]
    simpa using h

theorem C4_witness :
    summarize_and_plot_yields [(3:ℚ)] =
      .ok ⟨np_mean [(3:ℚ)], percentile [(3:ℚ)] 5, percentile [(3:ℚ)] 95⟩ :=
  (C4_empty_fails [(3:ℚ)]).2 (by simp)

/-- Claim C6: the summarizer's mean is the arithmetic average, the sum of
the samples divided by their count; in particular for `[0, 100]` it is 50. -/
theorem C6_mean_is_average :
    (∀ xs : List ℚ, xs ≠ [] → ∃ r, summarize_and_plot_yields xs = .ok r ∧
      r.mean_yield = xs.sum / (xs.length : ℚ)) ∧
    (∃ r, summarize_and_plot_yields [0, 100] = .ok r ∧ r.mean_yield = 50) := by
  constructor
  · intro xs h
    refine ⟨⟨np_mean xs, percentile xs 5, percentile xs 95⟩, ?_, rfl⟩
    rw [summarize_and_plot_yields, if_neg]
    simpa using h
  · refine ⟨⟨np_mean [0, 100], percentile [0, 100] 5, percentile [0, 100] 95⟩, ?_, ?_⟩
    · rw [summarize_and_plot_yields, if_neg (by norm_num)]
    · show np_mean [0, 100] = 50
      norm_num [np_mean]

theorem C6_witness :
    ∃ r, summarize_and_plot_yields [0, 100] = .ok r ∧
      r.mean_yield = ([0, 100] : List ℚ).sum / ((([0, 100] : List ℚ).length : ℕ) : ℚ) :=
  C6_mean_is_average.1 [0, 100] (by simp)

theorem rank_nonneg (xs : List ℚ) (q : ℚ) (hxs : xs ≠ []) (hq0 : 0 ≤ q) :
    0 ≤ rank xs q := by
  rw [rank]
  have hn : (1:ℚ) ≤ (xs.length : ℚ) := by
    exact_mod_cast List.length_pos.mpr hxs
  have hq : (0:ℚ) ≤ q / 100 := by positivity
  nlinarith

theorem rank_le_length (xs : List ℚ) (q : ℚ) (hxs : xs ≠ []) (hq1 : q ≤ 100) :
    rank xs q ≤ (xs.length : ℚ) - 1 := by
  rw [rank]
  have hn : (1:ℚ) ≤ (xs.length : ℚ) := by
    exact_mod_cast List.length_pos.mpr hxs
  have h100 : q / 100 ≤ 1 := by
    apply div_le_one_of_le₀ hq1
    norm_num
  nlinarith

/-- The numpy linear percentile agrees with the formula as the specification
words it, for percentiles between 0 and 100 on a non-empty input: numpy's
clipping of the upper index never fires except at an integral rank, where
the interpolation weight vanishes. -/
theorem percentile_eq_spec (xs : List ℚ) (q : ℚ) (hxs : xs ≠ [])
    (hq0 : 0 ≤ q) (hq1 : q ≤ 100) :
    percentile xs q = specPercentile xs q := by
  by_cases hint : ((loIndex xs q : ℚ)) = rank xs q
  · rw [percentile, specPercentile, if_pos hint, ← hint]
    ring
  · rw [percentile, specPercentile, if_neg hint]
    have hlt := loIndex_lt xs q hxs hq0 hq1
    have hfloor0 : 0 ≤ Int.floor (rank xs q) :=
      Int.floor_nonneg.mpr (rank_nonneg xs q hxs hq0)
    have hcast : ((loIndex xs q : ℚ)) ≤ rank xs q := by
      have h1 : ((loIndex xs q : ℤ)) = Int.floor (rank xs q) := by
        rw [loIndex]
        exact Int.toNat_of_nonneg hfloor0
      have h2 : ((Int.floor (rank xs q) : ℤ) : ℚ) ≤ rank xs q := Int.floor_le _
      rw [show ((loIndex xs q : ℚ)) = (((loIndex xs q : ℤ)) : ℚ) by push_cast; rfl, h1]
      exact h2
    have hl1 : 1 ≤ xs.length := List.length_pos.mpr hxs
    have hne2 : loIndex xs q ≠ xs.length - 1 := by
      intro he
      apply hint
      have hcast2 : ((loIndex xs q : ℚ)) = (xs.length : ℚ) - 1 := by
        rw [he, Nat.cast_sub hl1]
        norm_num
      have hr := rank_le_length xs q hxs hq1
      linarith
    have hmin : min (loIndex xs q + 1) (xs.length - 1) = loIndex xs q + 1 := by
      omega
    rw [hmin]

/-- Claim C5: the summarizer's percentiles follow the linear-interpolation
order-statistic formula (rank `q / 100 * (n - 1)` over the sorted values,
interpolating between the two bracketing order statistics); in particular on
`[10, 20, 30, 40, 50]` the 5th percentile is 12 and the 95th is 48. -/
theorem C5_percentile_formula :
    (∀ (xs : List ℚ) (q : ℚ), xs ≠ [] → 0 ≤ q → q ≤ 100 →
      percentile xs q = specPercentile xs q) ∧
    percentile [10, 20, 30, 40, 50] 5 = 12 ∧
    percentile [10, 20, 30, 40, 50] 95 = 48 := by
  refine ⟨fun xs q h h0 h1 => percentile_eq_spec xs q h h0 h1, ?_, ?_⟩
  · norm_num [percentile, sortedYields, rank, loIndex, List.insertionSort,
      List.orderedInsert, List.getD]
  · norm_num [percentile, sortedYields, rank, loIndex, List.insertionSort,
      List.orderedInsert, List.getD, Int.toNat]

theorem C5_witness :
    percentile [10, 20, 30, 40, 50] 5 = specPercentile [10, 20, 30, 40, 50] 5 :=
  C5_percentile_formula.1 [10, 20, 30, 40, 50] 5 (by simp) (by norm_num) (by norm_num)

/-- Claim C7: with population 100, charge 1000, loss 50000, 5000 trials and
hazard bounds `[0, 0]`, every drawn hazard rate is 0, so no policy ever has
an event: every one of the 5000 samples is exactly 100, and mean, p5 and p95
all equal 100, for every random source drawing from `[0, 1)`. -/
theorem C7_zero_hazard (g : ℕ → ℚ) (hg : UniformSource g) :
    simulate_yield_distribution cfgZero g = .ok (List.replicate 5000 (100:ℚ)) ∧
      summarize_and_plot_yields (List.replicate 5000 (100:ℚ)) =
        .ok ⟨100, 100, 100⟩ := by
  constructor
  · have hlist : (List.range cfgZero.simulations).map
        (fun t => trialValue cfgZero g (t * (1 + cfgZero.num_policies))) =
        List.replicate 5000 (100:ℚ) := by
      refine List.eq_replicate_iff.mpr
        ⟨by rw [List.length_map, List.length_range]; rfl, ?_⟩
      intro b hb
      obtain ⟨k, -, rfl⟩ := List.mem_map.mp hb
      rw [trialValue_cfgZero cfgZero g (k * (1 + cfgZero.num_policies))
        (fun j => (hg j).1) rfl rfl]
      norm_num [total_premiums, cfgZero]
    rw [simulate_ok cfgZero g (by norm_num [total_premiums, cfgZero]), hlist]
  · rw [summarize_and_plot_yields,
      if_neg (by rw [List.length_replicate]; norm_num),
      np_mean_replicate 5000 (by norm_num) 100,
      percentile_replicate 5000 (by norm_num) 100 5 (by norm_num) (by norm_num),
      percentile_replicate 5000 (by norm_num) 100 95 (by norm_num) (by norm_num)]

theorem C7_witness :
    simulate_yield_distribution cfgZero gW = .ok (List.replicate 5000 (100:ℚ)) ∧
      summarize_and_plot_yields (List.replicate 5000 (100:ℚ)) =
        .ok ⟨100, 100, 100⟩ :=
  C7_zero_hazard gW (fun i => ⟨by norm_num [gW], by norm_num [gW]⟩)

/-- Claim C8: with the same parameters but hazard bounds `[1, 1]`, every
drawn hazard rate is 1 and every uniform `[0, 1)` draw is strictly below it,
so all 100 policies burn in every trial: every sample is exactly −4900, and
mean, p5 and p95 all equal −4900, for every random source drawing from
`[0, 1)`. -/
theorem C8_certain_fire (g : ℕ → ℚ) (hg : UniformSource g) :
    simulate_yield_distribution cfgOne g = .ok (List.replicate 5000 (-4900:ℚ)) ∧
      summarize_and_plot_yields (List.replicate 5000 (-4900:ℚ)) =
        .ok ⟨-4900, -4900, -4900⟩ := by
  constructor
  · have hlist : (List.range cfgOne.simulations).map
        (fun t => trialValue cfgOne g (t * (1 + cfgOne.num_policies))) =
        List.replicate 5000 (-4900:ℚ) := by
      refine List.eq_replicate_iff.mpr
        ⟨by rw [List.length_map, List.length_range]; rfl, ?_⟩
      intro b hb
      obtain ⟨k, -, rfl⟩ := List.mem_map.mp hb
      rw [trialValue_cfgOne cfgOne g (k * (1 + cfgOne.num_policies))
        (fun j => (hg j).2) rfl rfl]
      norm_num [total_premiums, cfgOne]
    rw [simulate_ok cfgOne g (by norm_num [total_premiums, cfgOne]), hlist]
  · rw [summarize_and_plot_yields,
      if_neg (by rw [List.length_replicate]; norm_num),
      np_mean_replicate 5000 (by norm_num) (-4900),
      percentile_replicate 5000 (by norm_num) (-4900) 5 (by norm_num) (by norm_num),
      percentile_replicate 5000 (by norm_num) (-4900) 95 (by norm_num) (by norm_num)]

theorem C8_witness :
    simulate_yield_distribution cfgOne gW = .ok (List.replicate 5000 (-4900:ℚ)) ∧
      summarize_and_plot_yields (List.replicate 5000 (-4900:ℚ)) =
        .ok ⟨-4900, -4900, -4900⟩ :=
  C8_certain_fire gW (fun i => ⟨by norm_num [gW], by norm_num [gW]⟩)

/-- Claim C9: the simulation is deterministic in its random source — it
reads only the first `simulations * (1 + num_policies)` draws, and two
sources that agree on that prefix (in particular, the same seeded source in
the same initial state) produce bit-identical distributions. -/
theorem C9_reproducible (cfg : SimulationConfig) (g1 g2 : ℕ → ℚ)
    (h : ∀ i, i < cfg.simulations * (1 + cfg.num_policies) → g1 i = g2 i) :
    simulate_yield_distribution cfg g1 = simulate_yield_distribution cfg g2 := by
  rw [simulate_yield_distribution, simulate_yield_distribution]
  apply runTrials_congr
  intro i hi
  apply h
  rw [show 0 + cfg.simulations = cfg.simulations by omega] at hi
  exact hi

theorem C9_witness :
    simulate_yield_distribution cfgW gW = simulate_yield_distribution cfgW gW2 :=
  C9_reproducible cfgW gW gW2 (by
    intro i hi
    norm_num [cfgW] at hi
    simp [gW, gW2, hi])
